import Mathlib

/-!
A shallow embedding in Lean 4 of the core of the radixdlt-scrypto transaction
engine (the `radix-engine` and `scrypto` crates): addresses, resource
definitions with flag/permission bitmaps, the deterministic ID allocator,
and the `Track` staging layer.  Each Rust function that the development
reasons about is translated into an executable Lean definition, with machine
integers modelled as `Nat`/`Int` (bitwise flag operations on `u64` use `Nat`
bitwise operators; `Decimal`'s raw `i128` units are `Int`, whose operations
here cannot overflow the `i128` range at the points modelled).
-/

deriving instance DecidableEq for Except

namespace Scrypto

/-- A byte, modelled as a natural number (values used are < 256). -/
abbrev Byte := Nat

/-- The type `Address` from `scrypto/src/types/address.rs`: a tagged 26-byte
identifier.  The body `[u8; 26]` is modelled as a `List Byte`; statements
that need the fixed length carry it as a hypothesis. -/
inductive Address where
  | Package : List Byte → Address
  | Component : List Byte → Address
  | ResourceDef : List Byte → Address
deriving DecidableEq, Repr

/-- Well-formedness of an `Address`: the body has exactly 26 bytes, as the
Rust array type `[u8; 26]` guarantees. -/
def Address.wf : Address → Prop
  | .Package d => d.length = 26
  | .Component d => d.length = 26
  | .ResourceDef d => d.length = 26

instance : DecidablePred Address.wf := by
  intro a; cases a <;> simp [Address.wf] <;> infer_instance

/-- The error type `ParseAddressError` from `scrypto/src/types/address.rs`
(the `InvalidHex` variant concerns only string parsing and is not reachable
from byte slices). -/
inductive ParseAddressError where
  | InvalidLength : Nat → ParseAddressError
  | InvalidType : Byte → ParseAddressError
deriving DecidableEq, Repr

/-- Modelled from the spec: `combine(ty, data)` of the scrypto utils (not
under src/) prepends the one-byte variant tag to the 26-byte body, giving the
canonical 27-byte encoding `[variant_tag:1][body:26]`. -/
def combine (ty : Byte) (data : List Byte) : List Byte := ty :: data

/-- Function `Address::to_vec` from `scrypto/src/types/address.rs`. -/
def Address.to_vec : Address → List Byte
  | .Package d => combine 1 d
  | .Component d => combine 2 d
  | .ResourceDef d => combine 3 d

/-- The variant tag byte that `Address::to_vec` emits (1 = Package,
2 = Component, 3 = ResourceDef). -/
def Address.variantTag : Address → Byte
  | .Package _ => 1
  | .Component _ => 2
  | .ResourceDef _ => 3

/-- The conversion `impl TryFrom<&[u8]> for Address` from
`scrypto/src/types/address.rs`: length must be 27, then the first byte
selects the variant. -/
def Address.tryFrom (slice : List Byte) : Except ParseAddressError Address :=
  if h : slice.length = 27 then
    match slice, h with
    | t :: rest, _ =>
      if t = 1 then .ok (.Package rest)
      else if t = 2 then .ok (.Component rest)
      else if t = 3 then .ok (.ResourceDef rest)
      else .error (.InvalidType t)
    | [], h => absurd h (by decide)
  else .error (.InvalidLength slice.length)

/-- Generic first-match lookup in an association list; models
`HashMap::get` (each map is modelled as an association list whose earliest
binding for a key is the current one). -/
def lookupKV {κ ν : Type} [DecidableEq κ] (k : κ) : List (κ × ν) → Option ν
  | [] => none
  | (k', v) :: rest => if k = k' then some v else lookupKV k rest

/-- Modelled from the spec: resource flag bits of
`scrypto/src/resource/resource_flags.rs` (not under src/).  The spec lists
the six recognized single-bit flags; they are assigned bits 0 to 5 in the
order listed.  Only distinctness of the bits matters to the development. -/
def MINTABLE : Nat := 1

/-- Modelled from the spec: see `MINTABLE`. -/
def BURNABLE : Nat := 2

/-- Modelled from the spec: see `MINTABLE`. -/
def FREELY_BURNABLE : Nat := 4

/-- Modelled from the spec: see `MINTABLE`. -/
def RESTRICTED_TRANSFER : Nat := 8

/-- Modelled from the spec: see `MINTABLE`. -/
def INDIVIDUAL_METADATA_MUTABLE : Nat := 16

/-- Modelled from the spec: see `MINTABLE`. -/
def SHARED_METADATA_MUTABLE : Nat := 32

/-- Modelled from the spec: the union of all recognized flag bits. -/
def ALL_FLAGS : Nat := 63

/-- Modelled from the spec: `resource_flags_are_valid` of
`scrypto/src/resource/resource_flags.rs` (not under src/) — unrecognized
bits are rejected, i.e. the bitmap must be a subset of `ALL_FLAGS`. -/
def resource_flags_are_valid (flags : Nat) : Bool :=
  flags ||| ALL_FLAGS == ALL_FLAGS

/-- Modelled from the spec: permission bits of
`scrypto/src/resource/resource_permissions.rs` (not under src/), six
single-bit permissions in the spec's listed order. -/
def MAY_MINT : Nat := 1

/-- Modelled from the spec: see `MAY_MINT`. -/
def MAY_BURN : Nat := 2

/-- Modelled from the spec: see `MAY_MINT`. -/
def MAY_TRANSFER : Nat := 4

/-- Modelled from the spec: see `MAY_MINT`. -/
def MAY_CHANGE_INDIVIDUAL_METADATA : Nat := 8

/-- Modelled from the spec: see `MAY_MINT`. -/
def MAY_CHANGE_SHARED_METADATA : Nat := 16

/-- Modelled from the spec: see `MAY_MINT`. -/
def MAY_MANAGE_RESOURCE_FLAGS : Nat := 32

/-- Modelled from the spec: the union of all recognized permission bits. -/
def ALL_PERMISSIONS : Nat := 63

/-- Modelled from the spec: `resource_permissions_are_valid` of
`scrypto/src/resource/resource_permissions.rs` (not under src/). -/
def resource_permissions_are_valid (permissions : Nat) : Bool :=
  permissions ||| ALL_PERMISSIONS == ALL_PERMISSIONS

/-- Modelled from the spec: the scrypto `Decimal` (not under src/) is an
18-decimal-place fixed-point number backed by a signed `i128` of raw units,
modelled as `Int`.  The arithmetic performed on it by the functions embedded
below (comparison with zero, remainder, addition of in-range supplies) does
not overflow `i128` at any input used in this development. -/
structure Decimal where
  val : Int
deriving DecidableEq, Repr

/-- Modelled from the spec: the zero decimal. -/
def Decimal.zero : Decimal := ⟨0⟩

/-- Modelled from the spec: a `Decimal` is negative when its raw units are
(`Decimal::is_negative`, not under src/). -/
def Decimal.is_negative (d : Decimal) : Bool := d.val < 0

/-- Modelled from the spec: converting an integer count to a `Decimal`
multiplies by `10^18` raw units (`impl From<usize> for Decimal`). -/
def Decimal.ofCount (n : Nat) : Decimal := ⟨(n : Int) * 10 ^ 18⟩

/-- The type `ResourceType` of the scrypto crate: fungible with a
divisibility (u8, valid range 0..=18), or non-fungible. -/
inductive ResourceType where
  | Fungible (divisibility : Nat)
  | NonFungible
deriving DecidableEq, Repr

/-- Modelled from the spec: `ResourceType::divisibility` (not under src/)
returns the stored divisibility for fungibles; the non-fungible arm is not
exercised by any claim and is modelled as 0. -/
def ResourceType.divisibility : ResourceType → Nat
  | .Fungible d => d
  | .NonFungible => 0

/-- The type `NonFungibleKey` of the scrypto crate: an opaque byte string
(`NonFungibleKey::new(Vec<u8>)`). -/
structure NonFungibleKey where
  bytes : List Byte
deriving DecidableEq, Repr

/-- Modelled from the spec: the initial-supply descriptor `NewSupply`
(not under src/).  Non-fungible entries form a keyed map; only its key set
matters here, modelled as a `Finset`. -/
inductive NewSupply where
  | Fungible (amount : Decimal)
  | NonFungible (entries : Finset NonFungibleKey)
deriving DecidableEq

/-- Modelled from the spec: the engine-side `Supply` (not under src/): a
decimal amount for fungibles, a set of keys (`BTreeSet<NonFungibleKey>`,
modelled as a `Finset`) for non-fungibles. -/
inductive Supply where
  | Fungible (amount : Decimal)
  | NonFungible (keys : Finset NonFungibleKey)
deriving DecidableEq

/-- The error type `ResourceDefError` from
`radix-engine/src/model/resource_def.rs`. -/
inductive ResourceDefError where
  | TypeAndSupplyNotMatching
  | OperationNotAllowed
  | PermissionNotAllowed
  | InvalidDivisibility
  | InvalidAmount (amount : Decimal)
  | InvalidResourceFlags (flags : Nat)
  | InvalidResourcePermission (permission : Nat)
  | InvalidFlagUpdate (flags mutable_flags new_flags new_mutable_flags : Nat)
deriving DecidableEq, Repr

/-- The structure `ResourceDef` from
`radix-engine/src/model/resource_def.rs`.  The two `u64` bitmaps are `Nat`
(bitwise operations only), the `HashMap`s are association lists. -/
structure ResourceDef where
  resource_type : ResourceType
  metadata : List (String × String)
  flags : Nat
  mutable_flags : Nat
  authorities : List (Address × Nat)
  total_supply : Decimal
deriving DecidableEq

/-- Function `ResourceDef::is_flag_on`. -/
def ResourceDef.is_flag_on (self : ResourceDef) (flag : Nat) : Bool :=
  self.flags &&& flag == flag

/-- Function `ResourceDef::check_permission`: the badge must be present and
its permission bitmap must contain every requested permission bit. -/
def ResourceDef.check_permission (self : ResourceDef) (badge : Option Address)
    (permission : Nat) : Except ResourceDefError Unit :=
  match badge with
  | some badge =>
    match lookupKV badge self.authorities with
    | some auth =>
      if auth &&& permission == permission then .ok ()
      else .error .PermissionNotAllowed
    | none => .error .PermissionNotAllowed
  | none => .error .PermissionNotAllowed

/-- Function `ResourceDef::check_amount`: rejects exactly when the test
`!amount.is_negative() && amount.0 % 10i128.pow((18 - divisibility).into()) != 0`
holds.  Rust `%` on `i128` is truncated remainder, i.e. `Int.tmod`; the `u8`
difference `18 - divisibility` is `Nat` subtraction (for `divisibility > 18`
the source would panic on overflow; no claim evaluates it there). -/
def ResourceDef.check_amount (self : ResourceDef) (amount : Decimal) :
    Except ResourceDefError Unit :=
  let divisibility := self.resource_type.divisibility
  if !amount.is_negative && amount.val.tmod ((10 : Int) ^ (18 - divisibility)) != 0 then
    .error (.InvalidAmount amount)
  else
    .ok ()

/-- Function `ResourceDef::check_mint_auth`. -/
def ResourceDef.check_mint_auth (self : ResourceDef) (badge : Option Address) :
    Except ResourceDefError Unit :=
  if self.is_flag_on MINTABLE then
    self.check_permission badge MAY_MINT
  else
    .error .OperationNotAllowed

/-- Function `ResourceDef::check_burn_auth`. -/
def ResourceDef.check_burn_auth (self : ResourceDef) (badge : Option Address) :
    Except ResourceDefError Unit :=
  if self.is_flag_on BURNABLE then
    if self.is_flag_on FREELY_BURNABLE then .ok ()
    else self.check_permission badge MAY_BURN
  else
    .error .OperationNotAllowed

/-- Function `ResourceDef::check_take_from_vault_auth`. -/
def ResourceDef.check_take_from_vault_auth (self : ResourceDef)
    (badge : Option Address) : Except ResourceDefError Unit :=
  if !(self.is_flag_on RESTRICTED_TRANSFER) then .ok ()
  else self.check_permission badge MAY_TRANSFER

/-- Function `ResourceDef::check_manage_flags_auth`. -/
def ResourceDef.check_manage_flags_auth (self : ResourceDef)
    (badge : Option Address) : Except ResourceDefError Unit :=
  self.check_permission badge MAY_MANAGE_RESOURCE_FLAGS

/-- Function `ResourceDef::check_update_metadata_auth`. -/
def ResourceDef.check_update_metadata_auth (self : ResourceDef)
    (badge : Option Address) : Except ResourceDefError Unit :=
  if self.is_flag_on SHARED_METADATA_MUTABLE then
    self.check_permission badge MAY_CHANGE_SHARED_METADATA
  else
    .error .OperationNotAllowed

/-- Function `ResourceDef::check_update_non_fungible_mutable_data_auth`. -/
def ResourceDef.check_update_non_fungible_mutable_data_auth
    (self : ResourceDef) (badge : Option Address) : Except ResourceDefError Unit :=
  if self.is_flag_on INDIVIDUAL_METADATA_MUTABLE then
    self.check_permission badge MAY_CHANGE_INDIVIDUAL_METADATA
  else
    .error .OperationNotAllowed

/-- Function `ResourceDef::new`: validates the two flag bitmaps, every
authority's permission bitmap, and derives the initial `total_supply` from
the `(resource_type, initial_supply)` pair exactly as the source `match`
does.  In-place construction is modelled by returning the new value. -/
def ResourceDef.new (resource_type : ResourceType)
    (metadata : List (String × String)) (flags mutable_flags : Nat)
    (authorities : List (Address × Nat)) (initial_supply : Option NewSupply) :
    Except ResourceDefError ResourceDef :=
  let resource_def : ResourceDef :=
    { resource_type, metadata, flags, mutable_flags, authorities,
      total_supply := Decimal.zero }
  if !(resource_flags_are_valid flags) then
    .error (.InvalidResourceFlags flags)
  else if !(resource_flags_are_valid mutable_flags) then
    .error (.InvalidResourceFlags mutable_flags)
  else match resource_def.authorities.find? (fun p => !(resource_permissions_are_valid p.2)) with
  | some p => .error (.InvalidResourcePermission p.2)
  | none =>
    match resource_type, initial_supply with
    | .Fungible divisibility, some (.Fungible amount) =>
      if divisibility > 18 then .error .InvalidDivisibility
      else do
        resource_def.check_amount amount
        pure { resource_def with total_supply := amount }
    | .NonFungible, some (.NonFungible entries) =>
      pure { resource_def with total_supply := Decimal.ofCount entries.card }
    | _, none =>
      pure { resource_def with total_supply := Decimal.zero }
    | _, _ => .error .TypeAndSupplyNotMatching

/-- Function `ResourceDef::mint`: auth check, then supply-type match and
`total_supply` increment.  The source mutates in place and returns
`Result<(), _>`; here the updated value is returned. -/
def ResourceDef.mint (self : ResourceDef) (supply : Supply)
    (badge : Option Address) : Except ResourceDefError ResourceDef := do
  self.check_mint_auth badge
  match self.resource_type with
  | .Fungible _ =>
    match supply with
    | .Fungible amount => do
      self.check_amount amount
      pure { self with total_supply := ⟨self.total_supply.val + amount.val⟩ }
    | _ => .error .TypeAndSupplyNotMatching
  | .NonFungible =>
    match supply with
    | .NonFungible keys =>
      pure { self with
             total_supply := ⟨self.total_supply.val + (Decimal.ofCount keys.card).val⟩ }
    | _ => .error .TypeAndSupplyNotMatching

/-- Function `ResourceDef::burn`: auth check, then supply-type match and
`total_supply` decrement. -/
def ResourceDef.burn (self : ResourceDef) (supply : Supply)
    (badge : Option Address) : Except ResourceDefError ResourceDef := do
  self.check_burn_auth badge
  match self.resource_type with
  | .Fungible _ =>
    match supply with
    | .Fungible amount => do
      self.check_amount amount
      pure { self with total_supply := ⟨self.total_supply.val - amount.val⟩ }
    | _ => .error .TypeAndSupplyNotMatching
  | .NonFungible =>
    match supply with
    | .NonFungible keys =>
      pure { self with
             total_supply := ⟨self.total_supply.val - (Decimal.ofCount keys.card).val⟩ }
    | _ => .error .TypeAndSupplyNotMatching

/-- Function `ResourceDef::update_flags`: manage-flags auth, validity of the
changed bits, then the mutability containment test
`mutable_flags | changed == mutable_flags`. -/
def ResourceDef.update_flags (self : ResourceDef) (new_flags : Nat)
    (badge : Option Address) : Except ResourceDefError ResourceDef := do
  self.check_manage_flags_auth badge
  let changed := self.flags ^^^ new_flags
  if !(resource_flags_are_valid changed) then
    .error (.InvalidResourceFlags changed)
  else if self.mutable_flags ||| changed ≠ self.mutable_flags then
    .error (.InvalidFlagUpdate self.flags self.mutable_flags new_flags self.mutable_flags)
  else
    pure { self with flags := new_flags }

/-- Function `ResourceDef::update_mutable_flags`: same shape as
`update_flags`, on the `mutable_flags` bitmap. -/
def ResourceDef.update_mutable_flags (self : ResourceDef)
    (new_mutable_flags : Nat) (badge : Option Address) :
    Except ResourceDefError ResourceDef := do
  self.check_manage_flags_auth badge
  let changed := self.mutable_flags ^^^ new_mutable_flags
  if !(resource_flags_are_valid changed) then
    .error (.InvalidResourceFlags changed)
  else if self.mutable_flags ||| changed ≠ self.mutable_flags then
    .error (.InvalidFlagUpdate self.flags self.mutable_flags self.flags new_mutable_flags)
  else
    pure { self with mutable_flags := new_mutable_flags }

/-- Function `ResourceDef::update_metadata`. -/
def ResourceDef.update_metadata (self : ResourceDef)
    (new_metadata : List (String × String)) (badge : Option Address) :
    Except ResourceDefError ResourceDef := do
  self.check_update_metadata_auth badge
  pure { self with metadata := new_metadata }

/-- The type `H256` (a 32-byte hash) is modelled as its byte list, which is
what `as_ref().to_vec()` yields. -/
abbrev H256 := List Byte

/-- The type `Bid` (bucket id) of the scrypto crate: a `u32`. -/
structure Bid where
  val : Nat
deriving DecidableEq, Repr

/-- The type `Rid` (bucket-ref / proof id) of the scrypto crate: a `u32`. -/
structure Rid where
  val : Nat
deriving DecidableEq, Repr

/-- The type `Vid` (vault id) of the scrypto crate:
`(transaction_hash, u32 counter)`. -/
structure Vid where
  hash : H256
  val : Nat
deriving DecidableEq, Repr

/-- The type `Mid` (lazy-map id) from `scrypto/src/types/mid.rs`:
`Mid(pub H256, pub u32)`. -/
structure Mid where
  hash : H256
  val : Nat
deriving DecidableEq, Repr

/-- Constant `ECDSA_TOKEN_BID` from
`radix-engine/src/engine/id_allocator.rs`. -/
def ECDSA_TOKEN_BID : Bid := ⟨0⟩

/-- Constant `ECDSA_TOKEN_RID` from
`radix-engine/src/engine/id_allocator.rs`. -/
def ECDSA_TOKEN_RID : Rid := ⟨1⟩

/-- Constant `ECDSA_TOKEN` from `scrypto/src/types/address.rs`: the resource
definition address whose 26-byte body is 25 zero bytes followed by 5. -/
def ECDSA_TOKEN : Address := .ResourceDef (List.replicate 25 0 ++ [5])

/-- The enum `IdSpace` from `radix-engine/src/engine/id_allocator.rs`. -/
inductive IdSpace where
  | System
  | Transaction
  | Application
deriving DecidableEq, Repr

/-- The error enum `IdAllocatorError` from
`radix-engine/src/engine/id_allocator.rs`. -/
inductive IdAllocatorError where
  | OutOfID
deriving DecidableEq, Repr

/-- The structure `IdAllocator` from
`radix-engine/src/engine/id_allocator.rs`: a single `Range<u32>` cursor.
The fields model `available.start` and `available.end` (`end` is a Lean
keyword). -/
structure IdAllocator where
  availableStart : Nat
  availableEnd : Nat
deriving DecidableEq, Repr

/-- Function `IdAllocator::new`: `System => 0..512`,
`Transaction => 512..1024`, `Application => 1024..u32::MAX`
(`u32::MAX = 4294967295`). -/
def IdAllocator.new (kind : IdSpace) : IdAllocator :=
  match kind with
  | .System => ⟨0, 512⟩
  | .Transaction => ⟨512, 1024⟩
  | .Application => ⟨1024, 4294967295⟩

/-- Function `IdAllocator::next`: hand out `available.start` and advance it
while the range is non-empty (`Range::<u32>::len()` is
`end - start`, 0 for an exhausted range), else `OutOfID`.  The source
mutates in place; the successor state is returned alongside the id. -/
def IdAllocator.next (self : IdAllocator) :
    Except IdAllocatorError (Nat × IdAllocator) :=
  if self.availableEnd - self.availableStart > 0 then
    .ok (self.availableStart, { self with availableStart := self.availableStart + 1 })
  else
    .error .OutOfID

/-- Little-endian byte encoding of a `u32` (`u32::to_le_bytes`). -/
def u32_le_bytes (n : Nat) : List Byte :=
  [n % 256, n / 2 ^ 8 % 256, n / 2 ^ 16 % 256, n / 2 ^ 24 % 256]

/-- Modelled from the spec: `sha256_twice` of the scrypto utils (not under
src/) applies the external sha256 of the sha2 crate twice; the hash function
itself is external to the repository and is abstract here, passed as a
parameter. -/
def sha256_twice (sha256 : List Byte → List Byte) (data : List Byte) : List Byte :=
  sha256 (sha256 data)

/-- Modelled from the spec: `H256::lower_26_bytes` (not under src/) takes
the low-order 26 bytes of the 32-byte hash, i.e. bytes 6 to 31. -/
def lower_26_bytes (h : List Byte) : List Byte := h.drop 6

/-- Modelled from the spec: `H256::lower_16_bytes` (not under src/) takes
the low-order 16 bytes. -/
def lower_16_bytes (h : List Byte) : List Byte := h.drop 16

/-- Reading a little-endian byte list as a natural number
(`u128::from_le_bytes`). -/
def u128_from_le_bytes (bytes : List Byte) : Nat :=
  bytes.foldr (fun b acc => acc * 256 + b) 0

/-- Function `IdAllocator::new_package_address`: extend the transaction hash
with the next counter's little-endian bytes, hash twice, keep the low-order
26 bytes, tag as a package address. -/
def IdAllocator.new_package_address (sha256 : List Byte → List Byte)
    (transaction_hash : H256) (self : IdAllocator) :
    Except IdAllocatorError (Address × IdAllocator) := do
  let (id, s) ← self.next
  pure (.Package (lower_26_bytes (sha256_twice sha256 (transaction_hash ++ u32_le_bytes id))), s)

/-- Function `IdAllocator::new_component_address`. -/
def IdAllocator.new_component_address (sha256 : List Byte → List Byte)
    (transaction_hash : H256) (self : IdAllocator) :
    Except IdAllocatorError (Address × IdAllocator) := do
  let (id, s) ← self.next
  pure (.Component (lower_26_bytes (sha256_twice sha256 (transaction_hash ++ u32_le_bytes id))), s)

/-- Function `IdAllocator::new_resource_address`. -/
def IdAllocator.new_resource_address (sha256 : List Byte → List Byte)
    (transaction_hash : H256) (self : IdAllocator) :
    Except IdAllocatorError (Address × IdAllocator) := do
  let (id, s) ← self.next
  pure (.ResourceDef (lower_26_bytes (sha256_twice sha256 (transaction_hash ++ u32_le_bytes id))), s)

/-- Function `IdAllocator::new_uuid`: `u128` from the low-order 16 bytes of
the double hash. -/
def IdAllocator.new_uuid (sha256 : List Byte → List Byte)
    (transaction_hash : H256) (self : IdAllocator) :
    Except IdAllocatorError (Nat × IdAllocator) := do
  let (id, s) ← self.next
  pure (u128_from_le_bytes (lower_16_bytes (sha256_twice sha256 (transaction_hash ++ u32_le_bytes id))), s)

/-- Function `IdAllocator::new_bid`. -/
def IdAllocator.new_bid (self : IdAllocator) :
    Except IdAllocatorError (Bid × IdAllocator) := do
  let (id, s) ← self.next
  pure (⟨id⟩, s)

/-- Function `IdAllocator::new_rid`. -/
def IdAllocator.new_rid (self : IdAllocator) :
    Except IdAllocatorError (Rid × IdAllocator) := do
  let (id, s) ← self.next
  pure (⟨id⟩, s)

/-- Function `IdAllocator::new_vid`. -/
def IdAllocator.new_vid (transaction_hash : H256) (self : IdAllocator) :
    Except IdAllocatorError (Vid × IdAllocator) := do
  let (id, s) ← self.next
  pure (⟨transaction_hash, id⟩, s)

/-- Function `IdAllocator::new_mid`. -/
def IdAllocator.new_mid (transaction_hash : H256) (self : IdAllocator) :
    Except IdAllocatorError (Mid × IdAllocator) := do
  let (id, s) ← self.next
  pure (⟨transaction_hash, id⟩, s)

/-- The possible kinds of allocation calls on an `IdAllocator`, one per
public allocation method. -/
inductive AllocCall where
  | pkg
  | comp
  | res
  | uuid
  | bid
  | rid
  | vid
  | mid
deriving DecidableEq, Repr

/-- The result of one allocation call. -/
inductive AllocResult where
  | addr (a : Address)
  | uuidVal (n : Nat)
  | bidVal (b : Bid)
  | ridVal (r : Rid)
  | vidVal (v : Vid)
  | midVal (m : Mid)
deriving DecidableEq, Repr

/-- Dispatch one allocation call of the given kind, exactly as the engine
would by calling the corresponding `IdAllocator` method. -/
def allocStep (sha256 : List Byte → List Byte) (transaction_hash : H256)
    (c : AllocCall) (s : IdAllocator) :
    Except IdAllocatorError (AllocResult × IdAllocator) :=
  match c with
  | .pkg => (s.new_package_address sha256 transaction_hash).map (fun p => (.addr p.1, p.2))
  | .comp => (s.new_component_address sha256 transaction_hash).map (fun p => (.addr p.1, p.2))
  | .res => (s.new_resource_address sha256 transaction_hash).map (fun p => (.addr p.1, p.2))
  | .uuid => (s.new_uuid sha256 transaction_hash).map (fun p => (.uuidVal p.1, p.2))
  | .bid => s.new_bid.map (fun p => (.bidVal p.1, p.2))
  | .rid => s.new_rid.map (fun p => (.ridVal p.1, p.2))
  | .vid => (s.new_vid transaction_hash).map (fun p => (.vidVal p.1, p.2))
  | .mid => (s.new_mid transaction_hash).map (fun p => (.midVal p.1, p.2))

/-- Run a sequence of allocation calls, threading the allocator state; a
failed call leaves the state unchanged, as `IdAllocator::next` only advances
the cursor on success. -/
def runAlloc (sha256 : List Byte → List Byte) (transaction_hash : H256) :
    List AllocCall → IdAllocator → List (Except IdAllocatorError AllocResult)
  | [], _ => []
  | c :: cs, s =>
    match allocStep sha256 transaction_hash c s with
    | .ok (r, s') => .ok r :: runAlloc sha256 transaction_hash cs s'
    | .error e => .error e :: runAlloc sha256 transaction_hash cs s

/-- The closed form of one allocation call's outcome as a pure function of
the hash function, the transaction hash, the call kind, the counter value
and the (fixed) end of the id space. -/
def allocResultAt (sha256 : List Byte → List Byte) (transaction_hash : H256)
    (c : AllocCall) (counter stop : Nat) : Except IdAllocatorError AllocResult :=
  if stop - counter > 0 then
    .ok (match c with
      | .pkg => .addr (.Package (lower_26_bytes (sha256_twice sha256 (transaction_hash ++ u32_le_bytes counter))))
      | .comp => .addr (.Component (lower_26_bytes (sha256_twice sha256 (transaction_hash ++ u32_le_bytes counter))))
      | .res => .addr (.ResourceDef (lower_26_bytes (sha256_twice sha256 (transaction_hash ++ u32_le_bytes counter))))
      | .uuid => .uuidVal (u128_from_le_bytes (lower_16_bytes (sha256_twice sha256 (transaction_hash ++ u32_le_bytes counter))))
      | .bid => .bidVal ⟨counter⟩
      | .rid => .ridVal ⟨counter⟩
      | .vid => .vidVal ⟨transaction_hash, counter⟩
      | .mid => .midVal ⟨transaction_hash, counter⟩)
  else .error .OutOfID

/-- Iterated `IdAllocator::next`, discarding the ids: the allocator state
after `n` allocation attempts. -/
def IdAllocator.nextN : Nat → IdAllocator → IdAllocator
  | 0, s => s
  | n + 1, s =>
    match s.next with
    | .ok p => IdAllocator.nextN n p.2
    | .error _ => IdAllocator.nextN n s

/-- The id handed out by the `n`-th (0-based) allocation call on a fresh
allocator of the given space. -/
def nthId (kind : IdSpace) (n : Nat) : Except IdAllocatorError Nat :=
  (((IdAllocator.new kind).nextN n).next).map (fun p => p.1)

/-- The type `EcdsaPublicKey` of the scrypto crate, modelled as its byte
list (`to_vec`). -/
abbrev EcdsaPublicKey := List Byte

/-- Modelled from the spec: the engine-side `Bucket`
(`radix-engine/src/model/bucket.rs`, not under src/): a transient container
holding one resource class, constructed as
`Bucket::new(resource_address, resource_type, supply)`. -/
structure Bucket where
  resource_address : Address
  resource_type : ResourceType
  supply : Supply
deriving DecidableEq

/-- Modelled from the spec: the execution frame `Process`
(`radix-engine/src/engine/process.rs`, not under src/), reduced to the parts
`Track::start_process` touches: the frame depth and the table of virtual
bucket references seeded before running. -/
structure Process where
  depth : Nat
  virtual_bucket_refs : List (Bid × Rid × Bucket)
deriving DecidableEq

/-- Modelled from the spec: `Process::new(depth, verbose, track)` creates a
frame at the given depth with empty tables (the verbosity flag and the track
borrow do not affect the seeded state). -/
def Process.new (depth : Nat) : Process := ⟨depth, []⟩

/-- Modelled from the spec: `Process::create_virtual_bucket_ref` registers
the bucket under the given reserved bucket and reference ids. -/
def Process.create_virtual_bucket_ref (self : Process) (bid : Bid) (rid : Rid)
    (bucket : Bucket) : Process :=
  { self with virtual_bucket_refs := (bid, rid, bucket) :: self.virtual_bucket_refs }

/-- The `SubstateStore` ledger backend (an external interface), modelled as
six association-list key-value stores; `get_*` is `lookupKV` and `put_*`
prepends the new binding.  The value types of the five substates whose
definitions are not under src/ are type parameters. -/
structure Ledger (P C L V N : Type) where
  packages : List (Address × P)
  components : List (Address × C)
  resource_defs : List (Address × ResourceDef)
  lazy_maps : List ((Address × Mid) × L)
  vaults : List ((Address × Vid) × V)
  non_fungibles : List ((Address × NonFungibleKey) × N)
deriving DecidableEq

/-- The structure `Track` from `radix-engine/src/engine/track.rs`: the
six read-through caches and their companion `updated` key sets, plus the
transaction hash and signer list.  (The id allocator, log buffer, new-entity
list and LRU code cache play no role in the claims below and are omitted;
the borrowed ledger is passed to each operation explicitly.) -/
structure Track (P C L V N : Type) where
  transaction_hash : H256
  transaction_signers : List EcdsaPublicKey
  packages : List (Address × P)
  components : List (Address × C)
  resource_defs : List (Address × ResourceDef)
  lazy_maps : List ((Address × Mid) × L)
  vaults : List ((Address × Vid) × V)
  non_fungibles : List ((Address × NonFungibleKey) × N)
  updated_packages : List Address
  updated_components : List Address
  updated_resource_defs : List Address
  updated_lazy_maps : List (Address × Mid)
  updated_vaults : List (Address × Vid)
  updated_non_fungibles : List (Address × NonFungibleKey)
deriving DecidableEq

/-- Function `Track::start_process`: collect the signer keys into the
virtual signature bucket's key set, create the depth-0 frame, and register
the `ECDSA_TOKEN` bucket under the reserved ids — always, even with no
signers. -/
def Track.start_process {P C L V N : Type} (self : Track P C L V N) : Process :=
  let signers : Finset NonFungibleKey :=
    (self.transaction_signers.map (fun key => NonFungibleKey.mk key)).toFinset
  let process := Process.new 0
  let ecdsa_bucket : Bucket :=
    { resource_address := ECDSA_TOKEN, resource_type := .NonFungible,
      supply := .NonFungible signers }
  process.create_virtual_bucket_ref ECDSA_TOKEN_BID ECDSA_TOKEN_RID ecdsa_bucket

/-- Function `Track::get_package_mut`: insert the key into the `updated` set
first, then read through the cache and the ledger.  The source returns
`Option<&mut Package>`; the model returns the found value (if any) together
with the updated track. -/
def Track.get_package_mut {P C L V N : Type} (self : Track P C L V N)
    (ledger : Ledger P C L V N) (address : Address) :
    Option P × Track P C L V N :=
  let self := { self with updated_packages := address :: self.updated_packages }
  match lookupKV address self.packages with
  | some v => (some v, self)
  | none =>
    match lookupKV address ledger.packages with
    | some package => (some package, { self with packages := (address, package) :: self.packages })
    | none => (none, self)

/-- Function `Track::get_component_mut` (same shape as
`Track::get_package_mut`). -/
def Track.get_component_mut {P C L V N : Type} (self : Track P C L V N)
    (ledger : Ledger P C L V N) (address : Address) :
    Option C × Track P C L V N :=
  let self := { self with updated_components := address :: self.updated_components }
  match lookupKV address self.components with
  | some v => (some v, self)
  | none =>
    match lookupKV address ledger.components with
    | some component => (some component, { self with components := (address, component) :: self.components })
    | none => (none, self)

/-- Function `Track::get_resource_def_mut`. -/
def Track.get_resource_def_mut {P C L V N : Type} (self : Track P C L V N)
    (ledger : Ledger P C L V N) (address : Address) :
    Option ResourceDef × Track P C L V N :=
  let self := { self with updated_resource_defs := address :: self.updated_resource_defs }
  match lookupKV address self.resource_defs with
  | some v => (some v, self)
  | none =>
    match lookupKV address ledger.resource_defs with
    | some resource_def => (some resource_def, { self with resource_defs := (address, resource_def) :: self.resource_defs })
    | none => (none, self)

/-- Function `Track::get_lazy_map_mut`. -/
def Track.get_lazy_map_mut {P C L V N : Type} (self : Track P C L V N)
    (ledger : Ledger P C L V N) (component_address : Address) (mid : Mid) :
    Option L × Track P C L V N :=
  let lazy_map_id := (component_address, mid)
  let self := { self with updated_lazy_maps := lazy_map_id :: self.updated_lazy_maps }
  match lookupKV lazy_map_id self.lazy_maps with
  | some v => (some v, self)
  | none =>
    match lookupKV lazy_map_id ledger.lazy_maps with
    | some lazy_map => (some lazy_map, { self with lazy_maps := (lazy_map_id, lazy_map) :: self.lazy_maps })
    | none => (none, self)

/-- Function `Track::get_vault_mut`. -/
def Track.get_vault_mut {P C L V N : Type} (self : Track P C L V N)
    (ledger : Ledger P C L V N) (component_address : Address) (vid : Vid) :
    Option V × Track P C L V N :=
  let vault_id := (component_address, vid)
  let self := { self with updated_vaults := vault_id :: self.updated_vaults }
  match lookupKV vault_id self.vaults with
  | some v => (some v, self)
  | none =>
    match lookupKV vault_id ledger.vaults with
    | some vault => (some vault, { self with vaults := (vault_id, vault) :: self.vaults })
    | none => (none, self)

/-- Function `Track::get_non_fungible_mut`. -/
def Track.get_non_fungible_mut {P C L V N : Type} (self : Track P C L V N)
    (ledger : Ledger P C L V N) (resource_address : Address)
    (key : NonFungibleKey) : Option N × Track P C L V N :=
  let nf_id := (resource_address, key)
  let self := { self with updated_non_fungibles := nf_id :: self.updated_non_fungibles }
  match lookupKV nf_id self.non_fungibles with
  | some v => (some v, self)
  | none =>
    match lookupKV nf_id ledger.non_fungibles with
    | some non_fungible => (some non_fungible, { self with non_fungibles := (nf_id, non_fungible) :: self.non_fungibles })
    | none => (none, self)

/-- One cache's share of `Track::commit`: for each key of the `updated` set,
forward the cached value to the store.  The source's
`self.cache.get(&key).unwrap()` panics when the key has no cached value;
the panic is modelled as `none`. -/
def commitOne {κ ν : Type} [DecidableEq κ] (cache : List (κ × ν))
    (store : List (κ × ν)) : List κ → Option (List (κ × ν))
  | [] => some store
  | k :: rest =>
    match lookupKV k cache with
    | some v => commitOne cache ((k, v) :: store) rest
    | none => none

/-- Function `Track::commit`: forward every updated entry of each of the six
caches to the ledger; `none` models the panic of an `unwrap` on a missing
cached value. -/
def Track.commit {P C L V N : Type} (self : Track P C L V N)
    (ledger : Ledger P C L V N) : Option (Ledger P C L V N) := do
  let packages ← commitOne self.packages ledger.packages self.updated_packages
  let components ← commitOne self.components ledger.components self.updated_components
  let resource_defs ← commitOne self.resource_defs ledger.resource_defs self.updated_resource_defs
  let lazy_maps ← commitOne self.lazy_maps ledger.lazy_maps self.updated_lazy_maps
  let vaults ← commitOne self.vaults ledger.vaults self.updated_vaults
  let non_fungibles ← commitOne self.non_fungibles ledger.non_fungibles self.updated_non_fungibles
  pure { packages, components, resource_defs, lazy_maps, vaults, non_fungibles }

/-- One mutating `ResourceDef` operation succeeding: the lifetime of a
resource definition after construction is a chain of these steps. -/
inductive ResourceDefStep : ResourceDef → ResourceDef → Prop where
  | mint (supply : Supply) (badge : Option Address) (rd rd' : ResourceDef) :
      rd.mint supply badge = .ok rd' → ResourceDefStep rd rd'
  | burn (supply : Supply) (badge : Option Address) (rd rd' : ResourceDef) :
      rd.burn supply badge = .ok rd' → ResourceDefStep rd rd'
  | update_flags (new_flags : Nat) (badge : Option Address) (rd rd' : ResourceDef) :
      rd.update_flags new_flags badge = .ok rd' → ResourceDefStep rd rd'
  | update_mutable_flags (new_mutable_flags : Nat) (badge : Option Address) (rd rd' : ResourceDef) :
      rd.update_mutable_flags new_mutable_flags badge = .ok rd' → ResourceDefStep rd rd'
  | update_metadata (new_metadata : List (String × String)) (badge : Option Address) (rd rd' : ResourceDef) :
      rd.update_metadata new_metadata badge = .ok rd' → ResourceDefStep rd rd'

/-- A concrete all-zero-body package address, used by the concrete
instantiations below. -/
def zeroAddr : Address := .Package (List.replicate 26 0)

/-- Concrete resource definition for the C2 counterexample: no flags, no
mutable flags, one authority holding the manage-flags permission. -/
def rdC2X : ResourceDef :=
  ⟨.Fungible 18, [], 0, 0, [(zeroAddr, MAY_MANAGE_RESOURCE_FLAGS)], Decimal.zero⟩

/-- Concrete resource definition for the C2 witness: `MINTABLE` mutable. -/
def rdC2W : ResourceDef :=
  ⟨.Fungible 18, [], 0, 1, [(zeroAddr, MAY_MANAGE_RESOURCE_FLAGS)], Decimal.zero⟩

/-- The C2 witness state after successfully setting `flags := MINTABLE`. -/
def rdC2W' : ResourceDef :=
  ⟨.Fungible 18, [], 1, 1, [(zeroAddr, MAY_MANAGE_RESOURCE_FLAGS)], Decimal.zero⟩

/-- Concrete resource definition for the C3 witness: burnable and freely
burnable, with no authorities at all. -/
def rdC3W : ResourceDef :=
  ⟨.Fungible 18, [], BURNABLE ||| FREELY_BURNABLE, 0, [], Decimal.zero⟩

/-- Concrete resource definition for the C10 witness: `MINTABLE` mutable. -/
def rdC10W : ResourceDef :=
  ⟨.Fungible 18, [], 0, 1, [(zeroAddr, MAY_MANAGE_RESOURCE_FLAGS)], Decimal.zero⟩

/-- The C10 witness state after shrinking `mutable_flags` to zero. -/
def rdC10W' : ResourceDef :=
  ⟨.Fungible 18, [], 0, 0, [(zeroAddr, MAY_MANAGE_RESOURCE_FLAGS)], Decimal.zero⟩

/-- A concrete empty `Track` over trivial substate types, for the C9
witness. -/
def trackC9 : Track Unit Unit Unit Unit Unit :=
  ⟨[], [], [], [], [], [], [], [], [], [], [], [], [], []⟩

/-- A concrete empty ledger, for the C9 witness. -/
def ledgerC9 : Ledger Unit Unit Unit Unit Unit := ⟨[], [], [], [], [], []⟩

/-- A concrete vault id, for the C9 witness. -/
def vidC9 : Vid := ⟨[], 0⟩

section Helpers

/-! Shared helper lemmas about the embedded definitions. -/

theorem lor_eq_left_iff (a b : Nat) :
    a ||| b = a ↔ ∀ i, b.testBit i = true → a.testBit i = true := by
  constructor
  · intro h i hb
    have := congrArg (fun n => n.testBit i) h
    simp only [Nat.testBit_lor] at this
    rw [hb] at this
    simpa using this
  · intro h
    apply Nat.eq_of_testBit_eq
    intro i
    rw [Nat.testBit_lor]
    cases hb : b.testBit i with
    | false => simp
    | true => simp [h i hb]

theorem lor_self_nat (a : Nat) : a ||| a = a :=
  (lor_eq_left_iff a a).mpr (fun _ h => h)

theorem lor_xor_absorb (a c : Nat) (h : a ||| c = a) : a ||| (a ^^^ c) = a := by
  rw [lor_eq_left_iff] at h ⊢
  intro i hx
  rw [Nat.testBit_xor] at hx
  by_cases ha : a.testBit i = true
  · exact ha
  · have ha' : a.testBit i = false := by simpa using ha
    rw [ha'] at hx
    simp only [Bool.false_xor] at hx
    exact h i hx

theorem IdAllocator.nextN_closed (n a b : Nat) (h : a ≤ b) :
    IdAllocator.nextN n ⟨a, b⟩ = ⟨min (a + n) b, b⟩ := by
  induction n generalizing a with
  | zero => simp [IdAllocator.nextN, Nat.min_eq_left h]
  | succ n ih =>
    rw [IdAllocator.nextN]
    by_cases hab : a < b
    · rw [show IdAllocator.next ⟨a, b⟩ = .ok (a, ⟨a + 1, b⟩) from by
        simp [IdAllocator.next, Nat.sub_pos_of_lt hab]]
      show IdAllocator.nextN n ⟨a + 1, b⟩ = _
      rw [ih (a + 1) hab]
      congr 1
      omega
    · have hab' : a = b := le_antisymm h (not_lt.mp hab)
      subst hab'
      rw [show IdAllocator.next ⟨a, a⟩ = .error .OutOfID from by simp [IdAllocator.next]]
      show IdAllocator.nextN n ⟨a, a⟩ = _
      rw [ih a h]
      congr 1
      simp [Nat.min_eq_right (Nat.le_add_right a n), Nat.min_eq_right (Nat.le_add_right a (n + 1))]

theorem allocStep_eq (f : List Byte → List Byte) (h : H256) (c : AllocCall)
    (s : IdAllocator) :
    allocStep f h c s
      = (allocResultAt f h c s.availableStart s.availableEnd).map
          (fun r => (r, ⟨s.availableStart + 1, s.availableEnd⟩)) := by
  by_cases hs : s.availableEnd - s.availableStart > 0 <;>
    cases c <;>
      simp [allocStep, allocResultAt, IdAllocator.new_package_address,
        IdAllocator.new_component_address, IdAllocator.new_resource_address,
        IdAllocator.new_uuid, IdAllocator.new_bid, IdAllocator.new_rid,
        IdAllocator.new_vid, IdAllocator.new_mid, IdAllocator.next, hs,
        Except.map, bind, Except.bind, pure, Except.pure]

theorem allocResultAt_out (f : List Byte → List Byte) (h : H256) (c : AllocCall)
    (counter stop : Nat) (hc : stop - counter = 0) :
    allocResultAt f h c counter stop = .error .OutOfID := by
  simp [allocResultAt, hc]

theorem runAlloc_get (f : List Byte → List Byte) (h : H256) (calls : List AllocCall)
    (s : IdAllocator) (k : Nat) (c : AllocCall) (hc : calls.get? k = some c) :
    (runAlloc f h calls s).get? k
      = some (allocResultAt f h c (s.availableStart + k) s.availableEnd) := by
  induction calls generalizing s k with
  | nil => simp at hc
  | cons c0 cs ih =>
    rw [runAlloc, allocStep_eq]
    cases hres : allocResultAt f h c0 s.availableStart s.availableEnd with
    | ok r =>
      cases k with
      | zero =>
        simp only [List.get?_cons_zero, Option.some.injEq] at hc
        subst hc
        show (Except.ok r :: runAlloc f h cs ⟨s.availableStart + 1, s.availableEnd⟩).get? 0
          = some (allocResultAt f h c0 (s.availableStart + 0) s.availableEnd)
        simp [hres]
      | succ k =>
        simp only [List.get?_cons_succ] at hc
        show (Except.ok r :: runAlloc f h cs ⟨s.availableStart + 1, s.availableEnd⟩).get? (k + 1)
          = some (allocResultAt f h c (s.availableStart + (k + 1)) s.availableEnd)
        rw [List.get?_cons_succ, ih ⟨s.availableStart + 1, s.availableEnd⟩ k hc]
        have harith : s.availableStart + 1 + k = s.availableStart + (k + 1) := by omega
        simp [harith]
    | error e =>
      have hstop : s.availableEnd - s.availableStart = 0 := by
        by_contra hne
        have hpos : s.availableEnd - s.availableStart > 0 := Nat.pos_of_ne_zero hne
        simp [allocResultAt, hpos] at hres
      cases e
      cases k with
      | zero =>
        simp only [List.get?_cons_zero, Option.some.injEq] at hc
        subst hc
        show (Except.error IdAllocatorError.OutOfID :: runAlloc f h cs s).get? 0
          = some (allocResultAt f h c0 (s.availableStart + 0) s.availableEnd)
        rw [allocResultAt_out f h c0 _ _ (by omega)]
        rfl
      | succ k =>
        simp only [List.get?_cons_succ] at hc
        show (Except.error IdAllocatorError.OutOfID :: runAlloc f h cs s).get? (k + 1)
          = some (allocResultAt f h c (s.availableStart + (k + 1)) s.availableEnd)
        rw [List.get?_cons_succ, ih s k hc, allocResultAt_out f h c _ _ (by omega),
            allocResultAt_out f h c _ _ (by omega)]

theorem commitOne_isSome_iff {κ ν : Type} [DecidableEq κ] (cache : List (κ × ν))
    (store : List (κ × ν)) (updated : List κ) :
    (commitOne cache store updated).isSome = true
      ↔ ∀ k ∈ updated, (lookupKV k cache).isSome = true := by
  induction updated generalizing store with
  | nil => simp [commitOne]
  | cons k rest ih =>
    rw [commitOne]
    cases hk : lookupKV k cache with
    | some v => simp [hk, ih]
    | none => simp [hk]

theorem Track.commit_isSome_iff {P C L V N : Type} (t : Track P C L V N)
    (ledger : Ledger P C L V N) :
    (t.commit ledger).isSome = true ↔
      ((∀ k ∈ t.updated_packages, (lookupKV k t.packages).isSome = true) ∧
       (∀ k ∈ t.updated_components, (lookupKV k t.components).isSome = true) ∧
       (∀ k ∈ t.updated_resource_defs, (lookupKV k t.resource_defs).isSome = true) ∧
       (∀ k ∈ t.updated_lazy_maps, (lookupKV k t.lazy_maps).isSome = true) ∧
       (∀ k ∈ t.updated_vaults, (lookupKV k t.vaults).isSome = true) ∧
       (∀ k ∈ t.updated_non_fungibles, (lookupKV k t.non_fungibles).isSome = true)) := by
  rw [Track.commit]
  rw [← commitOne_isSome_iff t.packages ledger.packages,
      ← commitOne_isSome_iff t.components ledger.components,
      ← commitOne_isSome_iff t.resource_defs ledger.resource_defs,
      ← commitOne_isSome_iff t.lazy_maps ledger.lazy_maps,
      ← commitOne_isSome_iff t.vaults ledger.vaults,
      ← commitOne_isSome_iff t.non_fungibles ledger.non_fungibles]
  cases commitOne t.packages ledger.packages t.updated_packages <;>
    cases commitOne t.components ledger.components t.updated_components <;>
      cases commitOne t.resource_defs ledger.resource_defs t.updated_resource_defs <;>
        cases commitOne t.lazy_maps ledger.lazy_maps t.updated_lazy_maps <;>
          cases commitOne t.vaults ledger.vaults t.updated_vaults <;>
            cases commitOne t.non_fungibles ledger.non_fungibles t.updated_non_fungibles <;>
              simp [bind, Option.bind]

theorem check_permission_ok_iff (rd : ResourceDef) (badge : Option Address)
    (permission : Nat) :
    rd.check_permission badge permission = .ok () ↔
      ∃ b auth, badge = some b ∧ lookupKV b rd.authorities = some auth ∧
        auth &&& permission = permission := by
  cases badge with
  | none => simp [ResourceDef.check_permission]
  | some b =>
    cases hauth : lookupKV b rd.authorities with
    | none => simp [ResourceDef.check_permission, hauth]
    | some auth =>
      by_cases hperm : auth &&& permission = permission
      · simp [ResourceDef.check_permission, hauth, hperm]
      · simp [ResourceDef.check_permission, hauth, hperm]

theorem mint_preserves_flags (rd rd' : ResourceDef) (s : Supply) (b : Option Address)
    (h : rd.mint s b = .ok rd') :
    rd'.flags = rd.flags ∧ rd'.mutable_flags = rd.mutable_flags := by
  unfold ResourceDef.mint at h
  simp only [bind, Except.bind] at h
  split at h
  · simp at h
  · split at h
    · split at h
      · split at h
        · simp at h
        · simp only [pure, Except.pure, Except.ok.injEq] at h
          subst h
          exact ⟨rfl, rfl⟩
      · simp at h
    · split at h
      · simp only [pure, Except.pure, Except.ok.injEq] at h
        subst h
        exact ⟨rfl, rfl⟩
      · simp at h

theorem burn_preserves_flags (rd rd' : ResourceDef) (s : Supply) (b : Option Address)
    (h : rd.burn s b = .ok rd') :
    rd'.flags = rd.flags ∧ rd'.mutable_flags = rd.mutable_flags := by
  unfold ResourceDef.burn at h
  simp only [bind, Except.bind] at h
  split at h
  · simp at h
  · split at h
    · split at h
      · split at h
        · simp at h
        · simp only [pure, Except.pure, Except.ok.injEq] at h
          subst h
          exact ⟨rfl, rfl⟩
      · simp at h
    · split at h
      · simp only [pure, Except.pure, Except.ok.injEq] at h
        subst h
        exact ⟨rfl, rfl⟩
      · simp at h

theorem update_metadata_preserves_flags (rd rd' : ResourceDef)
    (md : List (String × String)) (b : Option Address)
    (h : rd.update_metadata md b = .ok rd') :
    rd'.flags = rd.flags ∧ rd'.mutable_flags = rd.mutable_flags := by
  unfold ResourceDef.update_metadata at h
  simp only [bind, Except.bind] at h
  split at h
  · simp at h
  · simp only [pure, Except.pure, Except.ok.injEq] at h
    subst h
    exact ⟨rfl, rfl⟩

theorem update_flags_ok_inv (rd rd' : ResourceDef) (nf : Nat) (b : Option Address)
    (h : rd.update_flags nf b = .ok rd') :
    rd.mutable_flags ||| (rd.flags ^^^ nf) = rd.mutable_flags ∧
    rd' = { rd with flags := nf } := by
  unfold ResourceDef.update_flags at h
  simp only [bind, Except.bind] at h
  split at h
  · simp at h
  · split at h
    · simp at h
    · split at h
      · simp at h
      · next hsub =>
        simp only [pure, Except.pure, Except.ok.injEq] at h
        exact ⟨not_not.mp hsub, h.symm⟩

theorem update_mutable_flags_ok_inv (rd rd' : ResourceDef) (nm : Nat) (b : Option Address)
    (h : rd.update_mutable_flags nm b = .ok rd') :
    rd.mutable_flags ||| (rd.mutable_flags ^^^ nm) = rd.mutable_flags ∧
    rd' = { rd with mutable_flags := nm } := by
  unfold ResourceDef.update_mutable_flags at h
  simp only [bind, Except.bind] at h
  split at h
  · simp at h
  · split at h
    · simp at h
    · split at h
      · simp at h
      · next hsub =>
        simp only [pure, Except.pure, Except.ok.injEq] at h
        exact ⟨not_not.mp hsub, h.symm⟩

theorem ResourceDefStep.invariant {rd rd' : ResourceDef} (h : ResourceDefStep rd rd') :
    rd.mutable_flags ||| rd'.mutable_flags = rd.mutable_flags ∧
    ∀ i, rd.mutable_flags.testBit i = false →
      rd'.flags.testBit i = rd.flags.testBit i := by
  cases h with
  | mint supply badge _ _ hs =>
    obtain ⟨hf, hm⟩ := mint_preserves_flags _ _ _ _ hs
    exact ⟨by rw [hm, lor_self_nat], fun i _ => by rw [hf]⟩
  | burn supply badge _ _ hs =>
    obtain ⟨hf, hm⟩ := burn_preserves_flags _ _ _ _ hs
    exact ⟨by rw [hm, lor_self_nat], fun i _ => by rw [hf]⟩
  | update_metadata md badge _ _ hs =>
    obtain ⟨hf, hm⟩ := update_metadata_preserves_flags _ _ _ _ hs
    exact ⟨by rw [hm, lor_self_nat], fun i _ => by rw [hf]⟩
  | update_flags nf badge _ _ hs =>
    obtain ⟨hsub, hrd⟩ := update_flags_ok_inv _ _ _ _ hs
    subst hrd
    refine ⟨lor_self_nat _, fun i hi => ?_⟩
    have hmono := (lor_eq_left_iff _ _).mp hsub
    show nf.testBit i = rd.flags.testBit i
    by_cases hx : (rd.flags ^^^ nf).testBit i = true
    · have := hmono i hx
      rw [hi] at this
      exact absurd this (by simp)
    · have hx' : (rd.flags ^^^ nf).testBit i = false := by simpa using hx
      rw [Nat.testBit_xor] at hx'
      cases hfi : rd.flags.testBit i <;> cases hni : nf.testBit i <;> simp_all
  | update_mutable_flags nm badge _ _ hs =>
    obtain ⟨hsub, hrd⟩ := update_mutable_flags_ok_inv _ _ _ _ hs
    subst hrd
    have habs := lor_xor_absorb _ _ hsub
    rw [← Nat.xor_assoc, Nat.xor_self, Nat.zero_xor] at habs
    exact ⟨habs, fun i _ => rfl⟩

end Helpers

/-- C1: the claim states that `ResourceDef::check_amount` accepts an amount
iff it is non-negative and its raw units are a multiple of
`10^(18 - divisibility)`, and in particular returns `InvalidAmount` for
every negative amount.  The source negates the sign test
(`!amount.is_negative() && …`), so a negative amount — here raw units `-1`
on a divisibility-0 fungible resource, negative and not a multiple of
`10^18` — is accepted. -/
theorem c1_check_amount_accepts_negative :
    (Decimal.mk (-1)).is_negative = true ∧
    Int.tmod (-1) ((10 : Int) ^ (18 - ResourceType.divisibility (.Fungible 0))) ≠ 0 ∧
    (⟨.Fungible 0, [], 0, 0, [], Decimal.zero⟩ : ResourceDef).check_amount ⟨-1⟩ = .ok () := by
  decide

/-- C4: the claim states that `ResourceDef::new` with a fungible
divisibility above 18 returns `InvalidDivisibility` for every initial
supply, including `None`.  The divisibility test sits only inside the
`(Fungible, Some(Fungible))` match arm, so with `initial_supply = None` the
constructor succeeds at divisibility 19 (first conjunct), while the same
call with a fungible initial supply is rejected (third conjunct). -/
theorem c4_new_skips_divisibility_check_without_supply :
    ResourceDef.new (.Fungible 19) [] 0 0 [] none
      = .ok ⟨.Fungible 19, [], 0, 0, [], Decimal.zero⟩ ∧
    (19 : Nat) > 18 ∧
    ResourceDef.new (.Fungible 19) [] 0 0 [] (some (.Fungible ⟨0⟩))
      = .error .InvalidDivisibility := by
  exact ⟨rfl, by norm_num, rfl⟩

/-- C8: address encoding round-trips — for every well-formed `Address` the
encoding is 27 bytes, its first byte is the variant tag (1 Package,
2 Component, 3 ResourceDef), and decoding gives the address back; decoding
rejects every slice of length ≠ 27 with `InvalidLength` and every 27-byte
slice with an unknown leading tag with `InvalidType`. -/
theorem c8_address_roundtrip :
    (∀ a : Address, a.wf →
       a.to_vec.length = 27 ∧
       a.to_vec.head? = some a.variantTag ∧
       Address.tryFrom a.to_vec = .ok a) ∧
    (∀ slice : List Byte, slice.length ≠ 27 →
       Address.tryFrom slice = .error (.InvalidLength slice.length)) ∧
    (∀ (t : Byte) (rest : List Byte), (t :: rest).length = 27 →
       t ≠ 1 → t ≠ 2 → t ≠ 3 →
       Address.tryFrom (t :: rest) = .error (.InvalidType t)) := by
  refine ⟨?_, ?_, ?_⟩
  · intro a hwf
    cases a with
    | Package d =>
      have hd : d.length = 26 := hwf
      exact ⟨by simp [Address.to_vec, combine, hd],
             by simp [Address.to_vec, combine, Address.variantTag],
             by simp [Address.tryFrom, Address.to_vec, combine, hd]⟩
    | Component d =>
      have hd : d.length = 26 := hwf
      exact ⟨by simp [Address.to_vec, combine, hd],
             by simp [Address.to_vec, combine, Address.variantTag],
             by simp [Address.tryFrom, Address.to_vec, combine, hd]⟩
    | ResourceDef d =>
      have hd : d.length = 26 := hwf
      exact ⟨by simp [Address.to_vec, combine, hd],
             by simp [Address.to_vec, combine, Address.variantTag],
             by simp [Address.tryFrom, Address.to_vec, combine, hd]⟩
  · intro slice hlen
    unfold Address.tryFrom
    rw [dif_neg hlen]
  · intro t rest hlen h1 h2 h3
    unfold Address.tryFrom
    rw [dif_pos hlen]
    simp [h1, h2, h3]

/-- Witness for C8 at concrete inputs: a 26-zero-byte package address
round-trips, the empty slice is an `InvalidLength 0`, and tag 9 on an
otherwise well-formed slice is an `InvalidType 9`. -/
theorem c8_address_roundtrip_witness :
    (Address.Package (List.replicate 26 0)).to_vec.length = 27 ∧
    Address.tryFrom (Address.Package (List.replicate 26 0)).to_vec
      = .ok (.Package (List.replicate 26 0)) ∧
    Address.tryFrom [] = .error (.InvalidLength 0) ∧
    Address.tryFrom (9 :: List.replicate 26 0) = .error (.InvalidType 9) := by
  obtain ⟨h1, h2, h3⟩ := c8_address_roundtrip
  refine ⟨(h1 _ (by decide)).1, (h1 _ (by decide)).2.2, ?_, ?_⟩
  · simpa using h2 [] (by decide)
  · exact h3 9 (List.replicate 26 0) (by decide) (by decide) (by decide) (by decide)

/-- C2 (amended): every successful `update_flags` call changes only bits
inside `mutable_flags` (`mutable_flags | changed == mutable_flags`) and
leaves `mutable_flags` itself untouched; and when the manage-flags auth
passes and every changed bit is a recognized flag but some changed bit is
outside `mutable_flags`, the call returns `InvalidFlagUpdate`.  (A failing
call returns an error and produces no updated state, so the flags are
unchanged.)  The original claim's stronger statement — `InvalidFlagUpdate`
for every out-of-`mutable_flags` change — fails when the changed bits are
not recognized flags; see the counterexample. -/
theorem c2_update_flags_mutability (rd : ResourceDef) (new_flags : Nat)
    (badge : Option Address) :
    (∀ rd', rd.update_flags new_flags badge = .ok rd' →
       rd.mutable_flags ||| (rd.flags ^^^ new_flags) = rd.mutable_flags ∧
       rd'.flags = new_flags ∧ rd'.mutable_flags = rd.mutable_flags) ∧
    (rd.check_manage_flags_auth badge = .ok () →
     resource_flags_are_valid (rd.flags ^^^ new_flags) = true →
     rd.mutable_flags ||| (rd.flags ^^^ new_flags) ≠ rd.mutable_flags →
     rd.update_flags new_flags badge
       = .error (.InvalidFlagUpdate rd.flags rd.mutable_flags new_flags rd.mutable_flags)) := by
  constructor
  · intro rd' h
    obtain ⟨hsub, hrd⟩ := update_flags_ok_inv _ _ _ _ h
    subst hrd
    exact ⟨hsub, rfl, rfl⟩
  · intro hauth hvalid hsub
    unfold ResourceDef.update_flags
    simp only [bind, Except.bind, hauth]
    rw [if_neg (by simp [hvalid]), if_pos hsub]

/-- Counterexample to C2 as stated: on a resource whose `mutable_flags` is
empty, an authorized `update_flags` to the unrecognized bit `2^63` changes a
bit outside `mutable_flags`, yet the call fails with
`InvalidResourceFlags` — not with `InvalidFlagUpdate` as the claim
requires. -/
theorem c2_counterexample :
    rdC2X.check_manage_flags_auth (some zeroAddr) = .ok () ∧
    rdC2X.mutable_flags ||| (rdC2X.flags ^^^ 2 ^ 63) ≠ rdC2X.mutable_flags ∧
    rdC2X.update_flags (2 ^ 63) (some zeroAddr)
      = .error (.InvalidResourceFlags (2 ^ 63)) := by
  decide

/-- Witness for C2 at concrete inputs: an authorized change of the mutable
`MINTABLE` bit succeeds and satisfies the containment invariant, and an
authorized change of the immutable (but recognized) `BURNABLE` bit fails
with `InvalidFlagUpdate`. -/
theorem c2_update_flags_mutability_witness :
    (rdC2W.mutable_flags ||| (rdC2W.flags ^^^ 1) = rdC2W.mutable_flags ∧
     rdC2W'.flags = 1 ∧ rdC2W'.mutable_flags = rdC2W.mutable_flags) ∧
    rdC2W.update_flags 2 (some zeroAddr) = .error (.InvalidFlagUpdate 0 1 2 1) := by
  refine ⟨(c2_update_flags_mutability rdC2W 1 (some zeroAddr)).1 rdC2W' (by decide), ?_⟩
  have h := (c2_update_flags_mutability rdC2W 2 (some zeroAddr)).2
    (by decide) (by decide) (by decide)
  simpa [rdC2W] using h

/-- C3: with the `BURNABLE` flag on, `check_burn_auth` passes iff
`FREELY_BURNABLE` is on (then even with no badge) or the badge is an
authority holding `MAY_BURN`; `check_mint_auth` passes iff `MINTABLE` is on
and the badge is an authority holding `MAY_MINT`.  With the gating flag off
both checks fail (`OperationNotAllowed`), which the full iffs capture. -/
theorem c3_mint_burn_auth (rd : ResourceDef) (badge : Option Address) :
    (rd.check_burn_auth badge = .ok () ↔
       rd.is_flag_on BURNABLE = true ∧
         (rd.is_flag_on FREELY_BURNABLE = true ∨
           ∃ b auth, badge = some b ∧ lookupKV b rd.authorities = some auth ∧
             auth &&& MAY_BURN = MAY_BURN)) ∧
    (rd.check_mint_auth badge = .ok () ↔
       rd.is_flag_on MINTABLE = true ∧
         ∃ b auth, badge = some b ∧ lookupKV b rd.authorities = some auth ∧
           auth &&& MAY_MINT = MAY_MINT) ∧
    (rd.check_burn_auth none = .ok () ↔
       rd.is_flag_on BURNABLE = true ∧ rd.is_flag_on FREELY_BURNABLE = true) := by
  refine ⟨?_, ?_, ?_⟩
  · by_cases hb : rd.is_flag_on BURNABLE = true <;>
      by_cases hf : rd.is_flag_on FREELY_BURNABLE = true <;>
        simp [ResourceDef.check_burn_auth, check_permission_ok_iff, hb, hf]
  · by_cases hm : rd.is_flag_on MINTABLE = true <;>
      simp [ResourceDef.check_mint_auth, check_permission_ok_iff, hm]
  · by_cases hb : rd.is_flag_on BURNABLE = true <;>
      by_cases hf : rd.is_flag_on FREELY_BURNABLE = true <;>
        simp [ResourceDef.check_burn_auth, check_permission_ok_iff, hb, hf]

/-- Witness for C3 at a concrete input: a burnable, freely-burnable resource
with an empty authority table lets a badge-less burn authorization pass. -/
theorem c3_mint_burn_auth_witness : rdC3W.check_burn_auth none = .ok () :=
  (c3_mint_burn_auth rdC3W none).2.2.mpr ⟨by decide, by decide⟩

/-- C10: `mutable_flags` is monotonically non-increasing.
`update_mutable_flags` succeeds only when the new bitmap is a subset of the
current one, and over any lifetime (a chain of successful mint / burn /
update-flags / update-mutable-flags / update-metadata operations) the
`mutable_flags` bit-set never grows; once a bit is outside `mutable_flags`,
it stays outside and the corresponding `flags` bit never changes again. -/
theorem c10_mutable_flags_monotone :
    (∀ (rd rd' : ResourceDef) (nm : Nat) (badge : Option Address),
       rd.update_mutable_flags nm badge = .ok rd' →
       rd.mutable_flags ||| nm = rd.mutable_flags) ∧
    (∀ rd rd' : ResourceDef, Relation.ReflTransGen ResourceDefStep rd rd' →
       rd.mutable_flags ||| rd'.mutable_flags = rd.mutable_flags ∧
       ∀ i, rd.mutable_flags.testBit i = false →
         rd'.mutable_flags.testBit i = false ∧
         rd'.flags.testBit i = rd.flags.testBit i) := by
  constructor
  · intro rd rd' nm badge h
    obtain ⟨hsub, _⟩ := update_mutable_flags_ok_inv _ _ _ _ h
    have habs := lor_xor_absorb _ _ hsub
    rwa [← Nat.xor_assoc, Nat.xor_self, Nat.zero_xor] at habs
  · intro rd rd' h
    induction h with
    | refl => exact ⟨lor_self_nat _, fun i hi => ⟨hi, rfl⟩⟩
    | tail _ hstep ih =>
      obtain ⟨hm1, hfr1⟩ := ih
      obtain ⟨hm2, hfr2⟩ := ResourceDefStep.invariant hstep
      have hmono1 := (lor_eq_left_iff _ _).mp hm1
      have hmono2 := (lor_eq_left_iff _ _).mp hm2
      refine ⟨(lor_eq_left_iff _ _).mpr (fun i hi => hmono1 i (hmono2 i hi)), ?_⟩
      intro i hi
      obtain ⟨hmb, hfb⟩ := hfr1 i hi
      refine ⟨?_, ?_⟩
      · by_contra hc
        simp only [Bool.not_eq_false] at hc
        exact absurd (hmono2 i hc) (by simp [hmb])
      · rw [hfr2 i hmb, hfb]

/-- Witness for C10 at a concrete input: one authorized
`update_mutable_flags` step shrinking `mutable_flags` from `MINTABLE` to
empty satisfies the non-increase invariant. -/
theorem c10_mutable_flags_monotone_witness :
    rdC10W.update_mutable_flags 0 (some zeroAddr) = .ok rdC10W' ∧
    rdC10W.mutable_flags ||| 0 = rdC10W.mutable_flags ∧
    rdC10W.mutable_flags ||| rdC10W'.mutable_flags = rdC10W.mutable_flags := by
  have hstep : rdC10W.update_mutable_flags 0 (some zeroAddr) = .ok rdC10W' := by decide
  exact ⟨hstep,
    c10_mutable_flags_monotone.1 rdC10W rdC10W' 0 (some zeroAddr) hstep,
    (c10_mutable_flags_monotone.2 rdC10W rdC10W'
      (Relation.ReflTransGen.single
        (ResourceDefStep.update_mutable_flags 0 (some zeroAddr) rdC10W rdC10W' hstep))).1⟩

/-- Counterexample to C5 as stated: counter `4294967295 = 2^32 - 1` lies in
the claimed interval `[1024, 2^32)`, but the allocation call that would have
to hand it out — the one with 0-based index `4294966271` — already reports
`OutOfID`, because the Application range of `IdAllocator::new` ends at
`u32::MAX = 2^32 - 1`, exclusive, not at `2^32`. -/
theorem c5_counterexample :
    nthId .Application 4294966271 = .error .OutOfID ∧
    1024 + 4294966271 = 4294967295 ∧ (4294967295 : Nat) < 2 ^ 32 := by
  refine ⟨?_, by norm_num, by norm_num⟩
  unfold nthId
  rw [show IdAllocator.new .Application = ⟨1024, 4294967295⟩ from rfl]
  rw [IdAllocator.nextN_closed 4294966271 1024 4294967295 (by norm_num)]
  norm_num [IdAllocator.next, Except.map]

/-- C5 (amended): a fresh Application-space `IdAllocator` hands out exactly
the counters of `[1024, 2^32 - 1)` — i.e. up to `u32::MAX` exclusive — in
strictly increasing order (the `n`-th call yields `1024 + n`), with
`OutOfID` exactly once that interval is exhausted; the System and
Transaction spaces behave likewise over `[0, 512)` and `[512, 1024)`.
Every allocation call of any kind consumes exactly one `next`, advancing
the shared cursor identically (last conjunct). -/
theorem c5_id_space_partition :
    (∀ n, nthId .System n = if n < 512 then .ok n else .error .OutOfID) ∧
    (∀ n, nthId .Transaction n = if n < 512 then .ok (512 + n) else .error .OutOfID) ∧
    (∀ n, nthId .Application n
       = if n < 4294966271 then .ok (1024 + n) else .error .OutOfID) ∧
    (∀ (f : List Byte → List Byte) (h : H256) (c : AllocCall) (s : IdAllocator),
       (allocStep f h c s).map (fun p => p.2) = s.next.map (fun p => p.2)) := by
  have key : ∀ (a b n : Nat), a ≤ b →
      (IdAllocator.nextN n ⟨a, b⟩).next.map (fun p => p.1)
        = if a + n < b then .ok (a + n) else .error .OutOfID := by
    intro a b n hab
    rw [IdAllocator.nextN_closed n a b hab]
    by_cases hlt : a + n < b
    · rw [if_pos hlt]
      have hmin : min (a + n) b = a + n := Nat.min_eq_left (le_of_lt hlt)
      simp [IdAllocator.next, hmin, Nat.sub_pos_of_lt hlt, Except.map]
    · rw [if_neg hlt]
      have hmin : min (a + n) b = b := Nat.min_eq_right (not_lt.mp hlt)
      simp [IdAllocator.next, hmin, Except.map]
  refine ⟨?_, ?_, ?_, ?_⟩
  · intro n
    have h := key 0 512 n (by norm_num)
    rw [show nthId .System n
        = (IdAllocator.nextN n ⟨0, 512⟩).next.map (fun p => p.1) from rfl, h]
    by_cases hn : n < 512
    · rw [if_pos (by omega), if_pos hn]
      norm_num
    · rw [if_neg (by omega), if_neg hn]
  · intro n
    have h := key 512 1024 n (by norm_num)
    rw [show nthId .Transaction n
        = (IdAllocator.nextN n ⟨512, 1024⟩).next.map (fun p => p.1) from rfl, h]
    by_cases hn : n < 512
    · rw [if_pos (by omega), if_pos hn]
    · rw [if_neg (by omega), if_neg hn]
  · intro n
    have h := key 1024 4294967295 n (by norm_num)
    rw [show nthId .Application n
        = (IdAllocator.nextN n ⟨1024, 4294967295⟩).next.map (fun p => p.1) from rfl, h]
    by_cases hn : n < 4294966271
    · rw [if_pos (by omega), if_pos hn]
    · rw [if_neg (by omega), if_neg hn]
  · intro f h c s
    rw [allocStep_eq]
    by_cases hs : s.availableEnd - s.availableStart > 0 <;>
      simp [allocResultAt, IdAllocator.next, hs, Except.map]

/-- C6: id allocation is deterministic — the `k`-th allocation call on a
fresh Application allocator is the pure function `allocResultAt` of the
hash function, the transaction hash, the call index and the requested kind
alone (so identical call sequences over the same transaction hash produce
identical results) — and the address constructors return the
variant-tagged low-order 26 bytes of `sha256(sha256(tx_hash ++
counter.to_le_bytes))`, with the external sha256 abstract. -/
theorem c6_alloc_deterministic :
    (∀ (f : List Byte → List Byte) (h : H256) (calls : List AllocCall)
        (k : Nat) (c : AllocCall),
       calls.get? k = some c →
       (runAlloc f h calls (IdAllocator.new .Application)).get? k
         = some (allocResultAt f h c (1024 + k) 4294967295)) ∧
    (∀ (f : List Byte → List Byte) (h : H256) (s : IdAllocator),
       s.availableStart < s.availableEnd →
       s.new_package_address f h
         = .ok (.Package (lower_26_bytes (f (f (h ++ u32_le_bytes s.availableStart)))),
                ⟨s.availableStart + 1, s.availableEnd⟩) ∧
       s.new_component_address f h
         = .ok (.Component (lower_26_bytes (f (f (h ++ u32_le_bytes s.availableStart)))),
                ⟨s.availableStart + 1, s.availableEnd⟩) ∧
       s.new_resource_address f h
         = .ok (.ResourceDef (lower_26_bytes (f (f (h ++ u32_le_bytes s.availableStart)))),
                ⟨s.availableStart + 1, s.availableEnd⟩)) := by
  constructor
  · intro f h calls k c hc
    simpa [IdAllocator.new] using runAlloc_get f h calls (IdAllocator.new .Application) k c hc
  · intro f h s hs
    refine ⟨?_, ?_, ?_⟩ <;>
      simp [IdAllocator.new_package_address, IdAllocator.new_component_address,
        IdAllocator.new_resource_address, IdAllocator.next, Nat.sub_pos_of_lt hs,
        bind, Except.bind, pure, Except.pure, sha256_twice]

/-- Witness for C6 at concrete inputs: with the identity in place of
sha256, an empty transaction hash and the call sequence `[bid, pkg]`, the
second call's result is the closed-form outcome at counter `1024 + 1`; and
on the live allocator state `[5, 10)` a package-address call consumes
counter 5 and advances to 6. -/
theorem c6_alloc_deterministic_witness :
    ((runAlloc (fun bs => bs) [] [.bid, .pkg] (IdAllocator.new .Application)).get? 1
      = some (allocResultAt (fun bs => bs) [] .pkg (1024 + 1) 4294967295)) ∧
    (IdAllocator.new_package_address (fun bs => bs) [] ⟨5, 10⟩
      = .ok (.Package [], ⟨6, 10⟩)) :=
  ⟨c6_alloc_deterministic.1 (fun bs => bs) [] [.bid, .pkg] 1 .pkg rfl,
   (c6_alloc_deterministic.2 (fun bs => bs) [] ⟨5, 10⟩ (by norm_num)).1⟩

/-- C7: `Track::start_process` always seeds the virtual signature bucket:
the depth-0 frame carries exactly one virtual bucket reference, binding the
reserved ids `(Bid 0, Rid 1)` to a non-fungible `ECDSA_TOKEN` bucket whose
key set is exactly the image of the transaction signers under
`NonFungibleKey::new` — the empty set when there are no signers. -/
theorem c7_virtual_signature_bucket {P C L V N : Type} (t : Track P C L V N) :
    t.start_process
      = { depth := 0,
          virtual_bucket_refs := [(⟨0⟩, ⟨1⟩,
            { resource_address := ECDSA_TOKEN, resource_type := .NonFungible,
              supply := .NonFungible
                ((t.transaction_signers.map NonFungibleKey.mk).toFinset) })] } ∧
    (∀ k : NonFungibleKey,
       k ∈ (t.transaction_signers.map NonFungibleKey.mk).toFinset ↔
         ∃ pk ∈ t.transaction_signers, k = NonFungibleKey.mk pk) ∧
    ((t.transaction_signers.map NonFungibleKey.mk).toFinset = ∅ ↔
       t.transaction_signers = []) := by
  refine ⟨rfl, ?_, ?_⟩
  · intro k
    simp [List.mem_map, eq_comm]
  · simp

/-- Witness for C7 at a concrete input: on an empty track with two signer
keys, the seeded process holds the two corresponding non-fungible keys
under `(Bid 0, Rid 1)`. -/
theorem c7_virtual_signature_bucket_witness :
    ({ trackC9 with transaction_signers := [[1], [2]] } :
        Track Unit Unit Unit Unit Unit).start_process
      = { depth := 0,
          virtual_bucket_refs := [(⟨0⟩, ⟨1⟩,
            { resource_address := ECDSA_TOKEN, resource_type := .NonFungible,
              supply := .NonFungible
                (([[1], [2]] : List EcdsaPublicKey).map NonFungibleKey.mk).toFinset })] } :=
  (c7_virtual_signature_bucket { trackC9 with transaction_signers := [[1], [2]] }).1

/-- C9: every mutable `Track` accessor inserts its key into the companion
`updated` set before the existence check, so a failed mutable lookup (key
absent from both the cache and the ledger) returns nothing yet leaves the
key in the `updated` set with no cached value; `Track::commit` then hits the
`unwrap` of the missing cached value (modelled as `none`).  Commit succeeds
exactly when every key of every `updated` set has a cached value (final
conjunct). -/
theorem c9_track_updated_before_check {P C L V N : Type}
    (t : Track P C L V N) (ledger : Ledger P C L V N) :
    (∀ a : Address,
       lookupKV a t.packages = none → lookupKV a ledger.packages = none →
       (t.get_package_mut ledger a).1 = none ∧
       a ∈ (t.get_package_mut ledger a).2.updated_packages ∧
       lookupKV a (t.get_package_mut ledger a).2.packages = none ∧
       (t.get_package_mut ledger a).2.commit ledger = none) ∧
    (∀ a : Address,
       lookupKV a t.components = none → lookupKV a ledger.components = none →
       (t.get_component_mut ledger a).1 = none ∧
       a ∈ (t.get_component_mut ledger a).2.updated_components ∧
       lookupKV a (t.get_component_mut ledger a).2.components = none ∧
       (t.get_component_mut ledger a).2.commit ledger = none) ∧
    (∀ a : Address,
       lookupKV a t.resource_defs = none → lookupKV a ledger.resource_defs = none →
       (t.get_resource_def_mut ledger a).1 = none ∧
       a ∈ (t.get_resource_def_mut ledger a).2.updated_resource_defs ∧
       lookupKV a (t.get_resource_def_mut ledger a).2.resource_defs = none ∧
       (t.get_resource_def_mut ledger a).2.commit ledger = none) ∧
    (∀ (ca : Address) (mid : Mid),
       lookupKV (ca, mid) t.lazy_maps = none →
       lookupKV (ca, mid) ledger.lazy_maps = none →
       (t.get_lazy_map_mut ledger ca mid).1 = none ∧
       (ca, mid) ∈ (t.get_lazy_map_mut ledger ca mid).2.updated_lazy_maps ∧
       lookupKV (ca, mid) (t.get_lazy_map_mut ledger ca mid).2.lazy_maps = none ∧
       (t.get_lazy_map_mut ledger ca mid).2.commit ledger = none) ∧
    (∀ (ca : Address) (vid : Vid),
       lookupKV (ca, vid) t.vaults = none →
       lookupKV (ca, vid) ledger.vaults = none →
       (t.get_vault_mut ledger ca vid).1 = none ∧
       (ca, vid) ∈ (t.get_vault_mut ledger ca vid).2.updated_vaults ∧
       lookupKV (ca, vid) (t.get_vault_mut ledger ca vid).2.vaults = none ∧
       (t.get_vault_mut ledger ca vid).2.commit ledger = none) ∧
    (∀ (ra : Address) (key : NonFungibleKey),
       lookupKV (ra, key) t.non_fungibles = none →
       lookupKV (ra, key) ledger.non_fungibles = none →
       (t.get_non_fungible_mut ledger ra key).1 = none ∧
       (ra, key) ∈ (t.get_non_fungible_mut ledger ra key).2.updated_non_fungibles ∧
       lookupKV (ra, key) (t.get_non_fungible_mut ledger ra key).2.non_fungibles = none ∧
       (t.get_non_fungible_mut ledger ra key).2.commit ledger = none) ∧
    ((t.commit ledger).isSome = true ↔
      ((∀ k ∈ t.updated_packages, (lookupKV k t.packages).isSome = true) ∧
       (∀ k ∈ t.updated_components, (lookupKV k t.components).isSome = true) ∧
       (∀ k ∈ t.updated_resource_defs, (lookupKV k t.resource_defs).isSome = true) ∧
       (∀ k ∈ t.updated_lazy_maps, (lookupKV k t.lazy_maps).isSome = true) ∧
       (∀ k ∈ t.updated_vaults, (lookupKV k t.vaults).isSome = true) ∧
       (∀ k ∈ t.updated_non_fungibles, (lookupKV k t.non_fungibles).isSome = true))) := by
  refine ⟨?_, ?_, ?_, ?_, ?_, ?_, Track.commit_isSome_iff t ledger⟩
  · intro a h1 h2
    have hacc : t.get_package_mut ledger a
        = (none, { t with updated_packages := a :: t.updated_packages }) := by
      unfold Track.get_package_mut
      simp [h1, h2]
    rw [hacc]
    refine ⟨rfl, by simp, h1, ?_⟩
    rw [← Option.not_isSome_iff_eq_none, Track.commit_isSome_iff]
    intro hall
    have hk := hall.1 a (by simp)
    rw [h1] at hk
    simp at hk
  · intro a h1 h2
    have hacc : t.get_component_mut ledger a
        = (none, { t with updated_components := a :: t.updated_components }) := by
      unfold Track.get_component_mut
      simp [h1, h2]
    rw [hacc]
    refine ⟨rfl, by simp, h1, ?_⟩
    rw [← Option.not_isSome_iff_eq_none, Track.commit_isSome_iff]
    intro hall
    have hk := hall.2.1 a (by simp)
    rw [h1] at hk
    simp at hk
  · intro a h1 h2
    have hacc : t.get_resource_def_mut ledger a
        = (none, { t with updated_resource_defs := a :: t.updated_resource_defs }) := by
      unfold Track.get_resource_def_mut
      simp [h1, h2]
    rw [hacc]
    refine ⟨rfl, by simp, h1, ?_⟩
    rw [← Option.not_isSome_iff_eq_none, Track.commit_isSome_iff]
    intro hall
    have hk := hall.2.2.1 a (by simp)
    rw [h1] at hk
    simp at hk
  · intro ca mid h1 h2
    have hacc : t.get_lazy_map_mut ledger ca mid
        = (none, { t with updated_lazy_maps := (ca, mid) :: t.updated_lazy_maps }) := by
      unfold Track.get_lazy_map_mut
      simp [h1, h2]
    rw [hacc]
    refine ⟨rfl, by simp, h1, ?_⟩
    rw [← Option.not_isSome_iff_eq_none, Track.commit_isSome_iff]
    intro hall
    have hk := hall.2.2.2.1 (ca, mid) (by simp)
    rw [h1] at hk
    simp at hk
  · intro ca vid h1 h2
    have hacc : t.get_vault_mut ledger ca vid
        = (none, { t with updated_vaults := (ca, vid) :: t.updated_vaults }) := by
      unfold Track.get_vault_mut
      simp [h1, h2]
    rw [hacc]
    refine ⟨rfl, by simp, h1, ?_⟩
    rw [← Option.not_isSome_iff_eq_none, Track.commit_isSome_iff]
    intro hall
    have hk := hall.2.2.2.2.1 (ca, vid) (by simp)
    rw [h1] at hk
    simp at hk
  · intro ra key h1 h2
    have hacc : t.get_non_fungible_mut ledger ra key
        = (none, { t with updated_non_fungibles := (ra, key) :: t.updated_non_fungibles }) := by
      unfold Track.get_non_fungible_mut
      simp [h1, h2]
    rw [hacc]
    refine ⟨rfl, by simp, h1, ?_⟩
    rw [← Option.not_isSome_iff_eq_none, Track.commit_isSome_iff]
    intro hall
    have hk := hall.2.2.2.2.2 (ra, key) (by simp)
    rw [h1] at hk
    simp at hk

/-- Witness for C9 at a concrete input: on an empty track and ledger, a
failed mutable vault lookup marks the vault id updated and makes the
subsequent commit fail. -/
theorem c9_track_updated_before_check_witness :
    (trackC9.get_vault_mut ledgerC9 zeroAddr vidC9).1 = none ∧
    (zeroAddr, vidC9) ∈ (trackC9.get_vault_mut ledgerC9 zeroAddr vidC9).2.updated_vaults ∧
    lookupKV (zeroAddr, vidC9) (trackC9.get_vault_mut ledgerC9 zeroAddr vidC9).2.vaults = none ∧
    (trackC9.get_vault_mut ledgerC9 zeroAddr vidC9).2.commit ledgerC9 = none :=
  (c9_track_updated_before_check trackC9 ledgerC9).2.2.2.2.1 zeroAddr vidC9 rfl rfl

end Scrypto
